import Mathlib

/-!
Verification of the transaction-scheduling core.

Part 1 embeds the lock-table prototype of `src/scheduler/src/main.rs`
(`AddressBook`, `Page`, `LockAttempt`, the lock/unlock operations and the
combined per-task lock routine).  The Rust `BTreeMap<Pubkey, Page>` is
embedded as its lookup function `Pubkey → Option Page`; the
`BTreeSet<UniqueWeight>` contended queue is embedded as a strictly sorted
list with ordered insertion.  Rust panics (`assert!`, `unreachable!`) are
embedded as `Option` results, `none` meaning the operation aborts.
-/

namespace Sol

/-- `Pubkey` (a 32-byte account address) embedded as an abstract key. -/
abbrev Pubkey := Nat

/-- `UniqueWeight` (the task's total order: `Weight` plus tie-breaking hash)
embedded as an abstract totally ordered key; only its order and identity
matter to the lock table. -/
abbrev UniqueWeight := Nat

/-- `enum RequestedUsage { Readonly, Writable }`. -/
inductive RequestedUsage
  | Readonly
  | Writable
deriving DecidableEq, Repr

/-- `enum CurrentUsage { Unused, Readonly(UsageCount), Writable }`. -/
inductive CurrentUsage
  | Unused
  | Readonly (count : Nat)
  | Writable
deriving DecidableEq, Repr

/-- `const SOLE_USE_COUNT: UsageCount = 1`. -/
def SOLE_USE_COUNT : Nat := 1

/-- `CurrentUsage::renew(requested_usage)`. -/
def CurrentUsage.renew : RequestedUsage → CurrentUsage
  | RequestedUsage.Readonly => CurrentUsage.Readonly SOLE_USE_COUNT
  | RequestedUsage.Writable => CurrentUsage.Writable

/-- `struct LockAttempt { address, is_success, requested_usage }`. -/
structure LockAttempt where
  address : Pubkey
  is_success : Bool
  requested_usage : RequestedUsage
deriving DecidableEq, Repr

/-- `LockAttempt::success(address, requested_usage)`. -/
def LockAttempt.success (address : Pubkey) (requested_usage : RequestedUsage) : LockAttempt :=
  { address := address, is_success := true, requested_usage := requested_usage }

/-- `LockAttempt::failure(address, requested_usage)`. -/
def LockAttempt.failure (address : Pubkey) (requested_usage : RequestedUsage) : LockAttempt :=
  { address := address, is_success := false, requested_usage := requested_usage }

/-- Ordered insertion into a strictly sorted list: the embedding of
`BTreeSet::insert` on the contended queue (sorted, duplicate-free). -/
def insertSorted (x : Nat) : List Nat → List Nat
  | [] => [x]
  | y :: ys =>
    if x < y then x :: y :: ys
    else if x = y then y :: ys
    else y :: insertSorted x ys

/-- `struct Page { current_usage, contended_queue }`. -/
structure Page where
  current_usage : CurrentUsage
  contended_queue : List UniqueWeight
deriving DecidableEq, Repr

/-- `AddressBookMap = BTreeMap<Pubkey, Page>` embedded as its lookup
function.  (The prototype's `newly_uncontended_addresses` field is touched
only by `unlock_after_execution`, which no claim depends on, so the book is
identified with its map.) -/
def AddressBook := Pubkey → Option Page

/-- Map update: the result of inserting/overwriting `page` at `a`. -/
def AddressBook.set (book : AddressBook) (a : Pubkey) (page : Page) : AddressBook :=
  fun x => if x = a then some page else book x

/-- Usage recorded for an address, if a page exists. -/
def usageAt (book : AddressBook) (a : Pubkey) : Option CurrentUsage :=
  (book a).map Page.current_usage

/-- Contended queue recorded for an address, if a page exists. -/
def contendedAt (book : AddressBook) (a : Pubkey) : Option (List UniqueWeight) :=
  (book a).map Page.contended_queue

/-- `AddressBook::attempt_lock_address(unique_weight, address, requested_usage)`:
returns the `LockAttempt` and the updated book.  Mirrors the Rust `match`
on the map entry and the current usage. -/
def attempt_lock_address (book : AddressBook) (unique_weight : UniqueWeight)
    (address : Pubkey) (requested_usage : RequestedUsage) : LockAttempt × AddressBook :=
  match book address with
  | none =>
    -- unconditional success if it's initial access
    (LockAttempt.success address requested_usage,
      book.set address
        { current_usage := CurrentUsage.renew requested_usage, contended_queue := [] })
  | some page =>
    match page.current_usage with
    | CurrentUsage.Unused =>
      (LockAttempt.success address requested_usage,
        book.set address { page with current_usage := CurrentUsage.renew requested_usage })
    | CurrentUsage.Readonly current_count =>
      match requested_usage with
      | RequestedUsage.Readonly =>
        (LockAttempt.success address requested_usage,
          book.set address
            { page with current_usage := CurrentUsage.Readonly (current_count + 1) })
      | RequestedUsage.Writable =>
        -- add to contended queue?
        (LockAttempt.failure address requested_usage, book)
    | CurrentUsage.Writable =>
      (LockAttempt.failure address requested_usage,
        book.set address
          { page with contended_queue := insertSorted unique_weight page.contended_queue })

/-- `AddressBook::unlock(attempt) -> bool`: `none` embeds the `assert!` /
`unreachable!` aborts; on success returns the `newly_uncontended` flag and
the updated book. -/
def unlock (book : AddressBook) (attempt : LockAttempt) : Option (Bool × AddressBook) :=
  if attempt.is_success = false then none
  else
    match book attempt.address with
    | none => none
    | some page =>
      match page.current_usage, attempt.requested_usage with
      | CurrentUsage.Readonly current_count, RequestedUsage.Readonly =>
        if current_count = SOLE_USE_COUNT then
          some (true, book.set attempt.address { page with current_usage := CurrentUsage.Unused })
        else
          some (false,
            book.set attempt.address
              { page with current_usage := CurrentUsage.Readonly (current_count - 1) })
      | CurrentUsage.Readonly _, RequestedUsage.Writable => none
      | CurrentUsage.Writable, RequestedUsage.Writable =>
        some (true, book.set attempt.address { page with current_usage := CurrentUsage.Unused })
      | CurrentUsage.Writable, RequestedUsage.Readonly => none
      | CurrentUsage.Unused, _ => none

/-- `AddressBook::ensure_unlock(attempt)`: unlocks only successful attempts
(no-op on failed ones); propagates an abort from `unlock`. -/
def ensure_unlock (book : AddressBook) (attempt : LockAttempt) : Option AddressBook :=
  if attempt.is_success then (unlock book attempt).map Prod.snd else some book

/-- The page is currently held in exactly the mode an attempt requests
(a `Readonly` page for a `Readonly` attempt, `Writable` for `Writable`). -/
def heldInMode : CurrentUsage → RequestedUsage → Bool
  | CurrentUsage.Readonly _, RequestedUsage.Readonly => true
  | CurrentUsage.Writable, RequestedUsage.Writable => true
  | _, _ => false

lemma mem_insertSorted (x b : Nat) : ∀ l : List Nat, b ∈ insertSorted x l ↔ b = x ∨ b ∈ l := by
  intro l
  induction l with
  | nil => simp [insertSorted]
  | cons y ys ih =>
    rcases Nat.lt_trichotomy x y with hlt | heq | hgt
    · have h1 : insertSorted x (y :: ys) = x :: y :: ys := by
        simp [insertSorted, hlt]
      rw [h1]
      simp
    · subst heq
      have h1 : insertSorted x (x :: ys) = x :: ys := by
        simp [insertSorted, Nat.lt_irrefl]
      rw [h1]
      simp only [List.mem_cons]
      tauto
    · have h1 : insertSorted x (y :: ys) = y :: insertSorted x ys := by
        have hnlt : ¬ x < y := by omega
        have hne : ¬ x = y := by omega
        simp [insertSorted, hnlt, hne]
      rw [h1]
      simp only [List.mem_cons, ih]
      tauto

lemma sorted_insertSorted (x : Nat) :
    ∀ l : List Nat, l.Sorted (· < ·) → (insertSorted x l).Sorted (· < ·) := by
  intro l
  induction l with
  | nil =>
    intro _
    simp [insertSorted]
  | cons y ys ih =>
    intro hs
    rw [List.sorted_cons] at hs
    rcases Nat.lt_trichotomy x y with hlt | heq | hgt
    · have h1 : insertSorted x (y :: ys) = x :: y :: ys := by
        simp [insertSorted, hlt]
      rw [h1, List.sorted_cons]
      refine ⟨?_, ?_⟩
      · intro b hb
        rcases List.mem_cons.mp hb with hb | hb
        · exact hb ▸ hlt
        · exact hlt.trans (hs.1 b hb)
      · rw [List.sorted_cons]
        exact hs
    · subst heq
      have h1 : insertSorted x (x :: ys) = x :: ys := by
        simp [insertSorted, Nat.lt_irrefl]
      rw [h1, List.sorted_cons]
      exact hs
    · have h1 : insertSorted x (y :: ys) = y :: insertSorted x ys := by
        have hnlt : ¬ x < y := by omega
        have hne : ¬ x = y := by omega
        simp [insertSorted, hnlt, hne]
      rw [h1, List.sorted_cons]
      refine ⟨?_, ih hs.2⟩
      intro b hb
      rcases (mem_insertSorted x b ys).mp hb with hb | hb
      · omega
      · exact hs.1 b hb

/-- `TransactionAccountLocks { writable, readonly }`: the accounts a task
declares for write and read access. -/
structure TransactionAccountLocks where
  writable : List Pubkey
  readonly : List Pubkey

/-- The threaded `locks.iter().map(|&a| address_book.attempt_lock_address(..)).collect()`
over one list of addresses with a fixed requested usage (the address book is
mutated left to right). -/
def attempt_lock_addresses (uw : UniqueWeight) (usage : RequestedUsage) :
    AddressBook → List Pubkey → List LockAttempt × AddressBook
  | book, [] => ([], book)
  | book, a :: rest =>
    let r := attempt_lock_address book uw a usage
    let rr := attempt_lock_addresses uw usage r.2 rest
    (r.1 :: rr.1, rr.2)

/-- `attempt_lock_for_execution`: all writable attempts first, then all
readonly attempts, appended; no short-circuit on failure. -/
def attempt_lock_for_execution (book : AddressBook) (uw : UniqueWeight)
    (locks : TransactionAccountLocks) : List LockAttempt × AddressBook :=
  let w := attempt_lock_addresses uw RequestedUsage.Writable book locks.writable
  let r := attempt_lock_addresses uw RequestedUsage.Readonly w.2 locks.readonly
  (w.1 ++ r.1, r.2)

/-- `ensure_unlock_for_failed_execution`: `ensure_unlock` folded over the
attempt set in order; an abort inside `unlock` propagates as `none`. -/
def ensure_unlock_for_failed_execution :
    AddressBook → List LockAttempt → Option AddressBook
  | book, [] => some book
  | book, l :: rest =>
    match ensure_unlock book l with
    | none => none
    | some book2 => ensure_unlock_for_failed_execution book2 rest

/-- `ScheduleStage::pop_then_lock_from_queue`, specialized to the task
popped from the transaction queue (`uw` its unique weight, `locks` the
account locks of its transaction): attempts the whole set, returns the
attempts when all succeeded, otherwise releases via
`ensure_unlock_for_failed_execution` and reports the task not runnable
(`none` in the first component). -/
def pop_then_lock_from_queue (book : AddressBook) (uw : UniqueWeight)
    (locks : TransactionAccountLocks) :
    Option (Option (List LockAttempt) × AddressBook) :=
  let r := attempt_lock_for_execution book uw locks
  if r.1.all LockAttempt.is_success then some (some r.1, r.2)
  else (ensure_unlock_for_failed_execution r.2 r.1).map (fun b2 => (none, b2))

/-- The data-model invariant: `Readonly(count)` implies `count ≥ 1`. -/
def readonlyInv (book : AddressBook) : Prop :=
  ∀ a page n, book a = some page → page.current_usage = CurrentUsage.Readonly n → 1 ≤ n

lemma set_eq_some (book : AddressBook) (a x : Pubkey) (p page2 : Page)
    (h : (book.set a p) x = some page2) :
    (x = a ∧ page2 = p) ∨ (x ≠ a ∧ book x = some page2) := by
  by_cases hx : x = a
  · subst hx
    simp [AddressBook.set] at h
    exact Or.inl ⟨rfl, h.symm⟩
  · simp [AddressBook.set, hx] at h
    exact Or.inr ⟨hx, h⟩

lemma attempt_lock_address_addr_usage (book : AddressBook) (uw : UniqueWeight)
    (a : Pubkey) (usage : RequestedUsage) :
    (attempt_lock_address book uw a usage).1.address = a ∧
    (attempt_lock_address book uw a usage).1.requested_usage = usage := by
  rcases hb : book a with _ | page
  · simp [attempt_lock_address, hb, LockAttempt.success]
  · rcases hcu : page.current_usage with _ | n | _ <;> rcases usage with _ | _ <;>
      simp [attempt_lock_address, hb, hcu, LockAttempt.success, LockAttempt.failure]

lemma attempt_lock_address_locality (book : AddressBook) (uw : UniqueWeight)
    (a : Pubkey) (usage : RequestedUsage) (x : Pubkey) (hx : x ≠ a) :
    (attempt_lock_address book uw a usage).2 x = book x := by
  rcases hb : book a with _ | page
  · simp [attempt_lock_address, hb, AddressBook.set, hx]
  · rcases hcu : page.current_usage with _ | n | _ <;> rcases usage with _ | _ <;>
      simp [attempt_lock_address, hb, hcu, AddressBook.set, hx]

lemma attempt_preserves_inv (book : AddressBook) (uw : UniqueWeight)
    (a : Pubkey) (usage : RequestedUsage) (hinv : readonlyInv book) :
    readonlyInv (attempt_lock_address book uw a usage).2 := by
  intro x page2 n h2 hcu2
  rcases hb : book a with _ | page
  · have h2a : (book.set a
        { current_usage := CurrentUsage.renew usage, contended_queue := [] }) x
        = some page2 := by
      simpa [attempt_lock_address, hb] using h2
    rcases set_eq_some _ _ _ _ _ h2a with ⟨_, hp⟩ | ⟨_, hp⟩
    · subst hp
      rcases usage with _ | _ <;>
        simp [CurrentUsage.renew, SOLE_USE_COUNT] at hcu2
      omega
    · exact hinv x page2 n hp hcu2
  · rcases hcu : page.current_usage with _ | m | _
    · have h2a : (book.set a
          { page with current_usage := CurrentUsage.renew usage }) x = some page2 := by
        simpa [attempt_lock_address, hb, hcu] using h2
      rcases set_eq_some _ _ _ _ _ h2a with ⟨_, hp⟩ | ⟨_, hp⟩
      · subst hp
        rcases usage with _ | _ <;>
          simp [CurrentUsage.renew, SOLE_USE_COUNT] at hcu2
        omega
      · exact hinv x page2 n hp hcu2
    · rcases usage with _ | _
      · have h2a : (book.set a
            { page with current_usage := CurrentUsage.Readonly (m + 1) }) x
            = some page2 := by
          simpa [attempt_lock_address, hb, hcu] using h2
        rcases set_eq_some _ _ _ _ _ h2a with ⟨_, hp⟩ | ⟨_, hp⟩
        · subst hp
          simp at hcu2
          omega
        · exact hinv x page2 n hp hcu2
      · have h2a : book x = some page2 := by
          simpa [attempt_lock_address, hb, hcu] using h2
        exact hinv x page2 n h2a hcu2
    · have h2a : (book.set a
          { page with contended_queue := insertSorted uw page.contended_queue }) x
          = some page2 := by
        simpa [attempt_lock_address, hb, hcu] using h2
      rcases set_eq_some _ _ _ _ _ h2a with ⟨_, hp⟩ | ⟨_, hp⟩
      · subst hp
        simp [hcu] at hcu2
      · exact hinv x page2 n hp hcu2

/-- The internal pair-list form of the threaded lock attempts, used to run
one induction over the concatenated writable/readonly sequence. -/
def attemptSeq (uw : UniqueWeight) :
    AddressBook → List (Pubkey × RequestedUsage) → List LockAttempt × AddressBook
  | book, [] => ([], book)
  | book, p :: rest =>
    let r := attempt_lock_address book uw p.1 p.2
    let rr := attemptSeq uw r.2 rest
    (r.1 :: rr.1, rr.2)

lemma attempt_lock_addresses_eq (uw : UniqueWeight) (usage : RequestedUsage) :
    ∀ (as : List Pubkey) (book : AddressBook),
      attempt_lock_addresses uw usage book as
        = attemptSeq uw book (as.map (fun a => (a, usage))) := by
  intro as
  induction as with
  | nil => intro book; rfl
  | cons a rest ih =>
    intro book
    simp only [attempt_lock_addresses, List.map_cons, attemptSeq]
    rw [ih]

lemma attemptSeq_append (uw : UniqueWeight) :
    ∀ (ps qs : List (Pubkey × RequestedUsage)) (book : AddressBook),
      attemptSeq uw book (ps ++ qs)
        = ((attemptSeq uw book ps).1 ++ (attemptSeq uw (attemptSeq uw book ps).2 qs).1,
            (attemptSeq uw (attemptSeq uw book ps).2 qs).2) := by
  intro ps
  induction ps with
  | nil => intro qs book; rfl
  | cons p rest ih =>
    intro qs book
    simp only [List.cons_append, attemptSeq, List.append_eq]
    rw [ih]

lemma attempt_lock_for_execution_eq (book : AddressBook) (uw : UniqueWeight)
    (locks : TransactionAccountLocks) :
    attempt_lock_for_execution book uw locks
      = attemptSeq uw book
          (locks.writable.map (fun a => (a, RequestedUsage.Writable))
            ++ locks.readonly.map (fun a => (a, RequestedUsage.Readonly))) := by
  simp only [attempt_lock_for_execution, attempt_lock_addresses_eq, attemptSeq_append]

lemma attemptSeq_locality (uw : UniqueWeight) :
    ∀ (ps : List (Pubkey × RequestedUsage)) (book : AddressBook) (x : Pubkey),
      x ∉ ps.map Prod.fst → (attemptSeq uw book ps).2 x = book x := by
  intro ps
  induction ps with
  | nil => intro book x _; rfl
  | cons p rest ih =>
    intro book x hx
    simp only [List.map_cons, List.mem_cons] at hx
    push_neg at hx
    simp only [attemptSeq]
    rw [ih _ x hx.2, attempt_lock_address_locality _ _ _ _ _ hx.1]

lemma unlock_locality (book : AddressBook) (attempt : LockAttempt) (flag : Bool)
    (book2 : AddressBook) (h : unlock book attempt = some (flag, book2)) :
    ∀ x, x ≠ attempt.address → book2 x = book x := by
  intro x hx
  rcases hsuc : attempt.is_success with _ | _
  · simp [unlock, hsuc] at h
  · rcases hb : book attempt.address with _ | page
    · simp [unlock, hsuc, hb] at h
    · rcases hcu : page.current_usage with _ | n | _ <;>
        rcases hru : attempt.requested_usage with _ | _
      · simp [unlock, hsuc, hb, hcu, hru] at h
      · simp [unlock, hsuc, hb, hcu, hru] at h
      · by_cases hone : n = SOLE_USE_COUNT <;>
          simp [unlock, hsuc, hb, hcu, hru, hone] at h <;>
          rw [← h.2] <;> simp [AddressBook.set, hx]
      · simp [unlock, hsuc, hb, hcu, hru] at h
      · simp [unlock, hsuc, hb, hcu, hru] at h
      · simp [unlock, hsuc, hb, hcu, hru] at h
        rw [← h.2]
        simp [AddressBook.set, hx]

/-- Per-address round trip: whatever a single lock attempt did at its
address, running `ensure_unlock` on that attempt (from any book that agrees
at the address) succeeds, touches only that address, and restores the
address's usage to its pre-attempt value (`Unused` if the page was freshly
created by the attempt). -/
lemma attempt_roundtrip (book : AddressBook) (uw : UniqueWeight) (a : Pubkey)
    (usage : RequestedUsage) (hinv : readonlyInv book) (bookS : AddressBook)
    (hS : bookS a = (attempt_lock_address book uw a usage).2 a) :
    ∃ bookB, ensure_unlock bookS (attempt_lock_address book uw a usage).1 = some bookB ∧
      (∀ x, x ≠ a → bookB x = bookS x) ∧
      usageAt bookB a = if (book a).isSome then usageAt book a else some CurrentUsage.Unused := by
  rcases hb : book a with _ | page
  · have hatt : (attempt_lock_address book uw a usage).1 = LockAttempt.success a usage := by
      simp [attempt_lock_address, hb]
    have hSa : bookS a
        = some { current_usage := CurrentUsage.renew usage, contended_queue := [] } := by
      rw [hS]
      simp [attempt_lock_address, hb, AddressBook.set]
    rw [hatt]
    rcases usage with _ | _
    · refine ⟨bookS.set a { current_usage := CurrentUsage.Unused, contended_queue := [] },
        ?_, ?_, ?_⟩
      · have hSa1 : bookS a
            = some { current_usage := CurrentUsage.Readonly 1, contended_queue := [] } := by
          simpa [CurrentUsage.renew, SOLE_USE_COUNT] using hSa
        simp [ensure_unlock, LockAttempt.success, unlock, hSa1, SOLE_USE_COUNT]
      · intro x hx
        simp [AddressBook.set, hx]
      · simp [usageAt, AddressBook.set, hb]
    · refine ⟨bookS.set a { current_usage := CurrentUsage.Unused, contended_queue := [] },
        ?_, ?_, ?_⟩
      · have hSa1 : bookS a
            = some { current_usage := CurrentUsage.Writable, contended_queue := [] } := by
          simpa [CurrentUsage.renew] using hSa
        simp [ensure_unlock, LockAttempt.success, unlock, hSa1]
      · intro x hx
        simp [AddressBook.set, hx]
      · simp [usageAt, AddressBook.set, hb]
  · rcases hcu : page.current_usage with _ | n | _
    · have hatt : (attempt_lock_address book uw a usage).1 = LockAttempt.success a usage := by
        simp [attempt_lock_address, hb, hcu]
      have hSa : bookS a = some { page with current_usage := CurrentUsage.renew usage } := by
        rw [hS]
        simp [attempt_lock_address, hb, hcu, AddressBook.set]
      rw [hatt]
      rcases usage with _ | _
      · refine ⟨bookS.set a { page with current_usage := CurrentUsage.Unused }, ?_, ?_, ?_⟩
        · have hSa1 : bookS a
              = some { page with current_usage := CurrentUsage.Readonly 1 } := by
            simpa [CurrentUsage.renew, SOLE_USE_COUNT] using hSa
          simp [ensure_unlock, LockAttempt.success, unlock, hSa1, SOLE_USE_COUNT]
        · intro x hx
          simp [AddressBook.set, hx]
        · simp [usageAt, AddressBook.set, hb, hcu]
      · refine ⟨bookS.set a { page with current_usage := CurrentUsage.Unused }, ?_, ?_, ?_⟩
        · have hSa1 : bookS a = some { page with current_usage := CurrentUsage.Writable } := by
            simpa [CurrentUsage.renew] using hSa
          simp [ensure_unlock, LockAttempt.success, unlock, hSa1]
        · intro x hx
          simp [AddressBook.set, hx]
        · simp [usageAt, AddressBook.set, hb, hcu]
    · have hn : 1 ≤ n := hinv a page n hb hcu
      rcases usage with _ | _
      · have hatt : (attempt_lock_address book uw a RequestedUsage.Readonly).1
            = LockAttempt.success a RequestedUsage.Readonly := by
          simp [attempt_lock_address, hb, hcu]
        have hSa : bookS a
            = some { page with current_usage := CurrentUsage.Readonly (n + 1) } := by
          rw [hS]
          simp [attempt_lock_address, hb, hcu, AddressBook.set]
        rw [hatt]
        refine ⟨bookS.set a { page with current_usage := CurrentUsage.Readonly (n + 1 - 1) },
          ?_, ?_, ?_⟩
        · have hne : ¬ (n + 1 = 1) := by omega
          simp [ensure_unlock, LockAttempt.success, unlock, hSa, SOLE_USE_COUNT, hne]
        · intro x hx
          simp [AddressBook.set, hx]
        · simp [usageAt, AddressBook.set, hb, hcu]
      · have hatt : (attempt_lock_address book uw a RequestedUsage.Writable).1
            = LockAttempt.failure a RequestedUsage.Writable := by
          simp [attempt_lock_address, hb, hcu]
        have hS2 : bookS a = book a := by
          rw [hS]
          simp [attempt_lock_address, hb, hcu]
        rw [hatt]
        refine ⟨bookS, by simp [ensure_unlock, LockAttempt.failure], fun x _ => rfl, ?_⟩
        simp [usageAt, hS2, hb, hcu]
    · have hatt : (attempt_lock_address book uw a usage).1 = LockAttempt.failure a usage := by
        simp [attempt_lock_address, hb, hcu]
      have hS2 : bookS a
          = some { page with contended_queue := insertSorted uw page.contended_queue } := by
        rw [hS]
        simp [attempt_lock_address, hb, hcu, AddressBook.set]
      rw [hatt]
      refine ⟨bookS, by simp [ensure_unlock, LockAttempt.failure], fun x _ => rfl, ?_⟩
      simp [usageAt, hS2, hb, hcu]

/-- Cleanup after a failed combined attempt, run over the pair-list form:
for distinct addresses and a well-formed initial book, the cleanup fold
succeeds, leaves untouched addresses alone, and restores every touched
address's usage to its pre-attempt value (`Unused` for freshly created
pages). -/
lemma attemptSeq_cleanup (uw : UniqueWeight) :
    ∀ (ps : List (Pubkey × RequestedUsage)) (book bookS : AddressBook),
      (ps.map Prod.fst).Nodup → readonlyInv book →
      (∀ x, x ∈ ps.map Prod.fst → bookS x = (attemptSeq uw book ps).2 x) →
      ∃ book2, ensure_unlock_for_failed_execution bookS (attemptSeq uw book ps).1 = some book2 ∧
        (∀ x, x ∉ ps.map Prod.fst → book2 x = bookS x) ∧
        (∀ x, x ∈ ps.map Prod.fst →
          usageAt book2 x = if (book x).isSome then usageAt book x else some CurrentUsage.Unused) := by
  intro ps
  induction ps with
  | nil =>
    intro book bookS _ _ _
    exact ⟨bookS, rfl, fun x _ => rfl, fun x hx => absurd hx (by simp)⟩
  | cons p rest ih =>
    intro book bookS hnd hinv hagree
    simp only [List.map_cons, List.nodup_cons] at hnd
    have hA : bookS p.1 = (attempt_lock_address book uw p.1 p.2).2 p.1 := by
      have h1 : bookS p.1 = (attemptSeq uw book (p :: rest)).2 p.1 :=
        hagree p.1 (by simp)
      rw [h1]
      show (attemptSeq uw (attempt_lock_address book uw p.1 p.2).2 rest).2 p.1 = _
      exact attemptSeq_locality uw rest _ p.1 hnd.1
    obtain ⟨bookB, hB, hBloc, hBusage⟩ :=
      attempt_roundtrip book uw p.1 p.2 hinv bookS hA
    have hinvA : readonlyInv (attempt_lock_address book uw p.1 p.2).2 :=
      attempt_preserves_inv book uw p.1 p.2 hinv
    have hagreeB : ∀ x, x ∈ rest.map Prod.fst →
        bookB x = (attemptSeq uw (attempt_lock_address book uw p.1 p.2).2 rest).2 x := by
      intro x hx
      have hxa : x ≠ p.1 := fun h => hnd.1 (h ▸ hx)
      rw [hBloc x hxa]
      exact hagree x (by simp [hx])
    obtain ⟨book2, h2, h2loc, h2usage⟩ :=
      ih (attempt_lock_address book uw p.1 p.2).2 bookB hnd.2 hinvA hagreeB
    refine ⟨book2, ?_, ?_, ?_⟩
    · show ensure_unlock_for_failed_execution bookS
        ((attempt_lock_address book uw p.1 p.2).1
          :: (attemptSeq uw (attempt_lock_address book uw p.1 p.2).2 rest).1) = some book2
      simp only [ensure_unlock_for_failed_execution, hB]
      exact h2
    · intro x hx
      simp only [List.map_cons, List.mem_cons] at hx
      push_neg at hx
      rw [h2loc x hx.2, hBloc x hx.1]
    · intro x hx
      simp only [List.map_cons, List.mem_cons] at hx
      rcases hx with hx | hx
      · subst hx
        have hb2 : book2 p.1 = bookB p.1 := h2loc p.1 hnd.1
        rw [usageAt, hb2, ← usageAt]
        exact hBusage
      · have hxa : x ≠ p.1 := fun h => hnd.1 (h ▸ hx)
        have hlocal : (attempt_lock_address book uw p.1 p.2).2 x = book x :=
          attempt_lock_address_locality book uw p.1 p.2 x hxa
        have := h2usage x hx
        rw [this]
        rw [usageAt, hlocal, ← usageAt]

/-- C4: the combined lock attempt produces exactly one `LockAttempt` per
declared account — all writable accounts first, then all readonly accounts,
in declaration order, each carrying its address and requested usage —
regardless of any failures among earlier attempts (no short-circuiting). -/
theorem C4_attempt_all_no_shortcircuit (book : AddressBook) (uw : UniqueWeight)
    (locks : TransactionAccountLocks) :
    ((attempt_lock_for_execution book uw locks).1).map
        (fun l => (l.address, l.requested_usage))
      = locks.writable.map (fun a => (a, RequestedUsage.Writable))
        ++ locks.readonly.map (fun a => (a, RequestedUsage.Readonly)) := by
  have key : ∀ (usage : RequestedUsage) (as : List Pubkey) (b : AddressBook),
      ((attempt_lock_addresses uw usage b as).1).map
          (fun l => (l.address, l.requested_usage))
        = as.map (fun a => (a, usage)) := by
    intro usage as
    induction as with
    | nil => intro b; rfl
    | cons a rest ihs =>
      intro b
      simp only [attempt_lock_addresses, List.map_cons]
      rw [ihs]
      have h := attempt_lock_address_addr_usage b uw a usage
      rw [h.1, h.2]
  simp only [attempt_lock_for_execution, List.map_append]
  rw [key, key]

/-- C10: when some attempt in the set failed, the cleanup path releases
exactly the successful attempts (`ensure_unlock` is a no-op on failed
ones), never aborts, restores every touched address's usage to its
pre-attempt value (a freshly created page stays in the table as `Unused`),
leaves every other address untouched, and reports the task not runnable
(`none`). -/
theorem C10_failed_attempt_cleanup (book : AddressBook) (uw : UniqueWeight)
    (locks : TransactionAccountLocks)
    (hnd : (locks.writable ++ locks.readonly).Nodup)
    (hinv : readonlyInv book)
    (hfail : (attempt_lock_for_execution book uw locks).1.all LockAttempt.is_success = false) :
    (∀ (b : AddressBook) (att : LockAttempt),
      att.is_success = false → ensure_unlock b att = some b) ∧
    ∃ book2, pop_then_lock_from_queue book uw locks = some (none, book2) ∧
      (∀ a, a ∉ locks.writable ++ locks.readonly → book2 a = book a) ∧
      (∀ a, a ∈ locks.writable ++ locks.readonly →
        usageAt book2 a = if (book a).isSome then usageAt book a else some CurrentUsage.Unused) := by
  constructor
  · intro b att hatt
    simp [ensure_unlock, hatt]
  · have hmap : ((locks.writable.map (fun a => (a, RequestedUsage.Writable))
        ++ locks.readonly.map (fun a => (a, RequestedUsage.Readonly))).map Prod.fst)
        = locks.writable ++ locks.readonly := by
      simp [List.map_map, Function.comp_def]
    obtain ⟨book2, h2, h2loc, h2usage⟩ :=
      attemptSeq_cleanup uw
        (locks.writable.map (fun a => (a, RequestedUsage.Writable))
          ++ locks.readonly.map (fun a => (a, RequestedUsage.Readonly)))
        book (attemptSeq uw book _).2 (by rw [hmap]; exact hnd) hinv (fun x _ => rfl)
    refine ⟨book2, ?_, ?_, ?_⟩
    · simp only [pop_then_lock_from_queue, hfail, Bool.false_eq_true, if_false]
      rw [attempt_lock_for_execution_eq]
      rw [h2]
      rfl
    · intro a ha
      have hx : a ∉ ((locks.writable.map (fun a => (a, RequestedUsage.Writable))
          ++ locks.readonly.map (fun a => (a, RequestedUsage.Readonly))).map Prod.fst) := by
        rw [hmap]
        exact ha
      rw [h2loc a hx]
      exact attemptSeq_locality uw _ book a hx
    · intro a ha
      exact h2usage a (by rw [hmap]; exact ha)

/-- Witness for C10: a task writing account 1 (fresh) and reading account 0
(already write-locked) fails its combined attempt; the cleanup succeeds and
restores pre-attempt usages. -/
theorem C10_failed_attempt_cleanup_witness :
    (∀ (b : AddressBook) (att : LockAttempt),
      att.is_success = false → ensure_unlock b att = some b) ∧
    ∃ book2, pop_then_lock_from_queue
        (fun a => if a = 0 then some ⟨CurrentUsage.Writable, []⟩ else none) 7 ⟨[1], [0]⟩
        = some (none, book2) ∧
      (∀ a, a ∉ ([1] : List Pubkey) ++ [0] →
        book2 a
          = (fun a => if a = 0 then some ⟨CurrentUsage.Writable, []⟩ else none : AddressBook) a) ∧
      (∀ a, a ∈ ([1] : List Pubkey) ++ [0] →
        usageAt book2 a
          = if ((fun a => if a = 0 then some ⟨CurrentUsage.Writable, []⟩ else none :
              AddressBook) a).isSome
            then usageAt (fun a => if a = 0 then some ⟨CurrentUsage.Writable, []⟩ else none) a
            else some CurrentUsage.Unused) :=
  C10_failed_attempt_cleanup
    (fun a => if a = 0 then some ⟨CurrentUsage.Writable, []⟩ else none) 7 ⟨[1], [0]⟩
    (by decide)
    (by
      intro a page n h hcu
      by_cases ha : a = 0
      · subst ha
        simp at h
        rw [← h] at hcu
        simp at hcu
      · simp [ha] at h)
    rfl

/-- C1: if the lock table has no page for the address, or the page's current
usage is `Unused`, `attempt_lock_address` initializes the page with the
requested usage and returns a successful `LockAttempt` carrying that address
and usage; if the page is `Readonly(n)` and the request is `Readonly`, it
increments the count to `n + 1` and succeeds. -/
theorem C1_attempt_lock_success_cases (book : AddressBook) (uw : UniqueWeight)
    (address : Pubkey) :
    (∀ usage : RequestedUsage,
      book address = none ∨ usageAt book address = some CurrentUsage.Unused →
        (attempt_lock_address book uw address usage).1 = LockAttempt.success address usage ∧
        usageAt (attempt_lock_address book uw address usage).2 address
          = some (CurrentUsage.renew usage)) ∧
    (∀ n, usageAt book address = some (CurrentUsage.Readonly n) →
        (attempt_lock_address book uw address RequestedUsage.Readonly).1
          = LockAttempt.success address RequestedUsage.Readonly ∧
        usageAt (attempt_lock_address book uw address RequestedUsage.Readonly).2 address
          = some (CurrentUsage.Readonly (n + 1))) := by
  constructor
  · intro usage h
    rcases h with h | h
    · simp [attempt_lock_address, h, usageAt, AddressBook.set]
    · rcases hb : book address with _ | page
      · simp [attempt_lock_address, hb, usageAt, AddressBook.set]
      · have hcu : page.current_usage = CurrentUsage.Unused := by
          rw [usageAt, hb] at h
          simpa using h
        simp [attempt_lock_address, hb, hcu, usageAt, AddressBook.set]
  · intro n h
    rcases hb : book address with _ | page
    · rw [usageAt, hb] at h
      simp at h
    · have hcu : page.current_usage = CurrentUsage.Readonly n := by
        rw [usageAt, hb] at h
        simpa using h
      simp [attempt_lock_address, hb, hcu, usageAt, AddressBook.set]

/-- Witness for C1: exercises both the fresh-page case and the
readonly-increment case at concrete inputs. -/
theorem C1_attempt_lock_success_cases_witness :
    ((attempt_lock_address (fun _ => none) 7 3 RequestedUsage.Writable).1
        = LockAttempt.success 3 RequestedUsage.Writable ∧
      usageAt (attempt_lock_address (fun _ => none) 7 3 RequestedUsage.Writable).2 3
        = some (CurrentUsage.renew RequestedUsage.Writable)) ∧
    ((attempt_lock_address
        (fun a => if a = 0 then some ⟨CurrentUsage.Readonly 2, []⟩ else none)
        7 0 RequestedUsage.Readonly).1 = LockAttempt.success 0 RequestedUsage.Readonly ∧
      usageAt (attempt_lock_address
        (fun a => if a = 0 then some ⟨CurrentUsage.Readonly 2, []⟩ else none)
        7 0 RequestedUsage.Readonly).2 0 = some (CurrentUsage.Readonly 3)) :=
  ⟨(C1_attempt_lock_success_cases (fun _ => none) 7 3).1 RequestedUsage.Writable (Or.inl rfl),
    (C1_attempt_lock_success_cases
      (fun a => if a = 0 then some ⟨CurrentUsage.Readonly 2, []⟩ else none) 7 0).2 2 rfl⟩

/-- C2 counterexample: on a page currently `Readonly(1)`, a `Writable`
request fails but the task is NOT enqueued on the page's contended queue
(the queue stays empty), contradicting the claim that both conflict cases
enqueue the task. -/
theorem C2_counterexample :
    ((attempt_lock_address
        (fun a => if a = 0 then some ⟨CurrentUsage.Readonly 1, []⟩ else none)
        7 0 RequestedUsage.Writable).1 = LockAttempt.failure 0 RequestedUsage.Writable) ∧
    contendedAt (attempt_lock_address
        (fun a => if a = 0 then some ⟨CurrentUsage.Readonly 1, []⟩ else none)
        7 0 RequestedUsage.Writable).2 0 = some [] ∧
    ¬ (7 ∈ ([] : List UniqueWeight)) := by
  refine ⟨rfl, rfl, by simp⟩

/-- C2 (amended): only a `Writable` page enqueues the requesting task's
unique weight (into the ordered, duplicate-free contended queue, preserving
existing waiters and strict sortedness) before failing; a `Readonly` page
with a `Writable` request fails leaving the book entirely unchanged, without
enqueueing. -/
theorem C2_amended_contended_enqueue (book : AddressBook) (uw : UniqueWeight)
    (address : Pubkey) (page : Page) :
    (∀ usage : RequestedUsage, page.current_usage = CurrentUsage.Writable →
      book address = some page →
      (attempt_lock_address book uw address usage).1 = LockAttempt.failure address usage ∧
      contendedAt (attempt_lock_address book uw address usage).2 address
        = some (insertSorted uw page.contended_queue) ∧
      uw ∈ insertSorted uw page.contended_queue ∧
      (∀ w ∈ page.contended_queue, w ∈ insertSorted uw page.contended_queue) ∧
      (page.contended_queue.Sorted (· < ·) →
        (insertSorted uw page.contended_queue).Sorted (· < ·)) ∧
      usageAt (attempt_lock_address book uw address usage).2 address
        = some CurrentUsage.Writable) ∧
    (∀ n, page.current_usage = CurrentUsage.Readonly n → book address = some page →
      (attempt_lock_address book uw address RequestedUsage.Writable).1
        = LockAttempt.failure address RequestedUsage.Writable ∧
      (attempt_lock_address book uw address RequestedUsage.Writable).2 = book) := by
  constructor
  · intro usage hcu hb
    refine ⟨?_, ?_, ?_, ?_, ?_, ?_⟩
    · cases usage <;> simp [attempt_lock_address, hb, hcu]
    · cases usage <;> simp [attempt_lock_address, hb, hcu, contendedAt, AddressBook.set]
    · exact (mem_insertSorted uw uw page.contended_queue).mpr (Or.inl rfl)
    · intro w hw
      exact (mem_insertSorted uw w page.contended_queue).mpr (Or.inr hw)
    · exact sorted_insertSorted uw page.contended_queue
    · cases usage <;> simp [attempt_lock_address, hb, hcu, usageAt, AddressBook.set]
  · intro n hcu hb
    constructor
    · simp [attempt_lock_address, hb, hcu]
    · simp [attempt_lock_address, hb, hcu]

/-- Witness for C2 (amended): exercises both conflict branches at concrete
inputs. -/
theorem C2_amended_contended_enqueue_witness :
    ((attempt_lock_address
        (fun a => if a = 0 then some ⟨CurrentUsage.Writable, [5]⟩ else none)
        7 0 RequestedUsage.Readonly).1 = LockAttempt.failure 0 RequestedUsage.Readonly ∧
      contendedAt (attempt_lock_address
        (fun a => if a = 0 then some ⟨CurrentUsage.Writable, [5]⟩ else none)
        7 0 RequestedUsage.Readonly).2 0 = some (insertSorted 7 [5]) ∧
      7 ∈ insertSorted 7 [5] ∧
      (∀ w ∈ [5], w ∈ insertSorted 7 ([5] : List UniqueWeight)) ∧
      (([5] : List UniqueWeight).Sorted (· < ·) →
        (insertSorted 7 [5]).Sorted (· < ·)) ∧
      usageAt (attempt_lock_address
        (fun a => if a = 0 then some ⟨CurrentUsage.Writable, [5]⟩ else none)
        7 0 RequestedUsage.Readonly).2 0 = some CurrentUsage.Writable) ∧
    ((attempt_lock_address
        (fun a => if a = 0 then some ⟨CurrentUsage.Readonly 1, []⟩ else none)
        7 0 RequestedUsage.Writable).1 = LockAttempt.failure 0 RequestedUsage.Writable ∧
      (attempt_lock_address
        (fun a => if a = 0 then some ⟨CurrentUsage.Readonly 1, []⟩ else none)
        7 0 RequestedUsage.Writable).2
        = (fun a => if a = 0 then some ⟨CurrentUsage.Readonly 1, []⟩ else none)) :=
  ⟨(C2_amended_contended_enqueue
      (fun a => if a = 0 then some ⟨CurrentUsage.Writable, [5]⟩ else none)
      7 0 ⟨CurrentUsage.Writable, [5]⟩).1 RequestedUsage.Readonly rfl rfl,
    (C2_amended_contended_enqueue
      (fun a => if a = 0 then some ⟨CurrentUsage.Readonly 1, []⟩ else none)
      7 0 ⟨CurrentUsage.Readonly 1, []⟩).2 1 rfl rfl⟩

/-- C3: `unlock` on a successful attempt held in the attempted mode
decrements a `Readonly` count (`Readonly(n)` with `n ≥ 2` becomes
`Readonly(n-1)`, returning `false`) or clears the page to `Unused`
(`Readonly(1)` under a readonly unlock, `Writable` under a writable unlock,
both returning `true`); in general the returned flag is `true` iff the
page's usage transitions to `Unused`. -/
theorem C3_unlock_transitions (book : AddressBook) (a : Pubkey) :
    (∀ page n, book a = some page → page.current_usage = CurrentUsage.Readonly n → 2 ≤ n →
      unlock book (LockAttempt.success a RequestedUsage.Readonly)
        = some (false, book.set a { page with current_usage := CurrentUsage.Readonly (n - 1) })) ∧
    (∀ page, book a = some page → page.current_usage = CurrentUsage.Readonly 1 →
      unlock book (LockAttempt.success a RequestedUsage.Readonly)
        = some (true, book.set a { page with current_usage := CurrentUsage.Unused })) ∧
    (∀ page, book a = some page → page.current_usage = CurrentUsage.Writable →
      unlock book (LockAttempt.success a RequestedUsage.Writable)
        = some (true, book.set a { page with current_usage := CurrentUsage.Unused })) ∧
    (∀ attempt flag book2, unlock book attempt = some (flag, book2) →
      (flag = true ↔ usageAt book2 attempt.address = some CurrentUsage.Unused)) := by
  refine ⟨?_, ?_, ?_, ?_⟩
  · intro page n hb hcu hn
    have hne : ¬ n = 1 := by omega
    simp [unlock, LockAttempt.success, hb, hcu, hne, SOLE_USE_COUNT]
  · intro page hb hcu
    simp [unlock, LockAttempt.success, hb, hcu, SOLE_USE_COUNT]
  · intro page hb hcu
    simp [unlock, LockAttempt.success, hb, hcu]
  · intro attempt flag book2 h
    rcases hsuc : attempt.is_success with _ | _
    · simp [unlock, hsuc] at h
    · rcases hb : book attempt.address with _ | page
      · simp [unlock, hsuc, hb] at h
      · rcases hcu : page.current_usage with _ | n | _ <;>
          rcases hru : attempt.requested_usage with _ | _
        · simp [unlock, hsuc, hb, hcu, hru] at h
        · simp [unlock, hsuc, hb, hcu, hru] at h
        · by_cases hone : n = SOLE_USE_COUNT
          · simp [unlock, hsuc, hb, hcu, hru, hone] at h
            rcases h with ⟨hflag, hbook⟩
            subst hflag
            subst hbook
            simp [usageAt, AddressBook.set]
          · simp [unlock, hsuc, hb, hcu, hru, hone] at h
            rcases h with ⟨hflag, hbook⟩
            subst hflag
            subst hbook
            simp [usageAt, AddressBook.set]
        · simp [unlock, hsuc, hb, hcu, hru] at h
        · simp [unlock, hsuc, hb, hcu, hru] at h
        · simp [unlock, hsuc, hb, hcu, hru] at h
          rcases h with ⟨hflag, hbook⟩
          subst hflag
          subst hbook
          simp [usageAt, AddressBook.set]

/-- Witness for C3: exercises the decrement case, both clear-to-`Unused`
cases and the flag characterization at concrete inputs. -/
theorem C3_unlock_transitions_witness :
    (unlock (fun a => if a = 0 then some ⟨CurrentUsage.Readonly 2, []⟩ else none)
        (LockAttempt.success 0 RequestedUsage.Readonly)
      = some (false, AddressBook.set
          (fun a => if a = 0 then some ⟨CurrentUsage.Readonly 2, []⟩ else none)
          0 ⟨CurrentUsage.Readonly 1, []⟩)) ∧
    (unlock (fun a => if a = 0 then some ⟨CurrentUsage.Readonly 1, []⟩ else none)
        (LockAttempt.success 0 RequestedUsage.Readonly)
      = some (true, AddressBook.set
          (fun a => if a = 0 then some ⟨CurrentUsage.Readonly 1, []⟩ else none)
          0 ⟨CurrentUsage.Unused, []⟩)) ∧
    (unlock (fun a => if a = 0 then some ⟨CurrentUsage.Writable, []⟩ else none)
        (LockAttempt.success 0 RequestedUsage.Writable)
      = some (true, AddressBook.set
          (fun a => if a = 0 then some ⟨CurrentUsage.Writable, []⟩ else none)
          0 ⟨CurrentUsage.Unused, []⟩)) :=
  ⟨(C3_unlock_transitions (fun a => if a = 0 then some ⟨CurrentUsage.Readonly 2, []⟩ else none)
      0).1 ⟨CurrentUsage.Readonly 2, []⟩ 2 rfl rfl (by omega),
    (C3_unlock_transitions (fun a => if a = 0 then some ⟨CurrentUsage.Readonly 1, []⟩ else none)
      0).2.1 ⟨CurrentUsage.Readonly 1, []⟩ rfl rfl,
    (C3_unlock_transitions (fun a => if a = 0 then some ⟨CurrentUsage.Writable, []⟩ else none)
      0).2.2.1 ⟨CurrentUsage.Writable, []⟩ rfl rfl⟩

/-- C5: `unlock` completes without hitting an abort (`assert!` or
`unreachable!`) exactly when the attempt succeeded and the page exists and
is held in the attempted mode; outside that precondition it aborts (returns
`none`) rather than silently recovering. -/
theorem C5_unlock_aborts_iff_not_held (book : AddressBook) (attempt : LockAttempt) :
    (unlock book attempt).isSome = true ↔
      (attempt.is_success = true ∧
        ∃ page, book attempt.address = some page ∧
          heldInMode page.current_usage attempt.requested_usage = true) := by
  rcases hsuc : attempt.is_success with _ | _
  · simp [unlock, hsuc]
  · rcases hb : book attempt.address with _ | page
    · simp [unlock, hsuc, hb]
    · rcases hcu : page.current_usage with _ | n | _ <;>
        rcases hru : attempt.requested_usage with _ | _
      · simp [unlock, hsuc, hb, hcu, hru, heldInMode]
      · simp [unlock, hsuc, hb, hcu, hru, heldInMode]
      -- the Readonly/Readonly branch splits on the count but succeeds either way
      · by_cases hone : n = SOLE_USE_COUNT <;>
          simp [unlock, hsuc, hb, hcu, hru, heldInMode, hone]
      · simp [unlock, hsuc, hb, hcu, hru, heldInMode]
      · simp [unlock, hsuc, hb, hcu, hru, heldInMode]
      · simp [unlock, hsuc, hb, hcu, hru, heldInMode]

/-!
Part 2 embeds the production pools.  `src/unified-scheduler-pool/src/lib.rs`:
the drop thread's per-session result/timing aggregation (`drop_main_loop`),
the idle-instance stack (`do_take_scheduler` / `return_scheduler`) and the
watchdog (`retire_if_stale`).  `src/scheduler-pool/src/lib.rs`: the
fail-fast `PooledScheduler::schedule_execution`.  Transaction results are
embedded as `ok`/`err e` with an abstract error code; `ExecuteTimings` as a
natural number with `accumulate` as addition; the bank as its transaction
count; wall-clock durations in milliseconds.
-/

/-- `Result<()>` of one transaction execution: `Ok(())` or `Err(e)` with an
abstract error code. -/
inductive TxResult
  | ok
  | err (e : Nat)
deriving DecidableEq, Repr

/-- `ExecutedTask` as consumed by the drop thread: its execution result and
its `ExecuteTimings` (embedded as a natural number; `accumulate` is
addition). -/
structure ExecutedTask where
  result : TxResult
  timing : Nat
deriving DecidableEq, Repr

/-- `SessionedMessage` as received by the drop thread over `drop_receiver`. -/
inductive SessionedMessage
  | Payload (task : ExecutedTask)
  | StartSession (result : TxResult) (timings : Nat)
  | EndSession
deriving DecidableEq, Repr

/-- One iteration of `drop_main_loop`'s receive loop: the state is the
running `(session_result, session_timings)`; a `Payload` accumulates the
task's timings and overwrites `session_result` on `Err`; `StartSession`
installs the carried-over pair; `EndSession` sends the pair over
`drop_sender2` (the second component) and resets the state. -/
def drop_step (state : TxResult × Nat) :
    SessionedMessage → (TxResult × Nat) × Option (TxResult × Nat)
  | SessionedMessage.Payload task =>
    ((match task.result with
      | TxResult.ok => state.1
      | TxResult.err e => TxResult.err e,
      state.2 + task.timing), none)
  | SessionedMessage.StartSession r t => ((r, t), none)
  | SessionedMessage.EndSession => ((TxResult.ok, 0), some state)

/-- `drop_main_loop` run over a message sequence: final state plus the list
of `(result, timings)` pairs emitted at `EndSession` boundaries. -/
def drop_run (state : TxResult × Nat) :
    List SessionedMessage → (TxResult × Nat) × List (TxResult × Nat)
  | [] => (state, [])
  | m :: rest =>
    let r := drop_step state m
    let rr := drop_run r.1 rest
    (rr.1, r.2.toList ++ rr.2)

/-- The session state after the drop thread has processed the session's
executed tasks, seeded with the `StartSession` pair. -/
def session_aggregate (init : TxResult × Nat) : List ExecutedTask → TxResult × Nat
  | [] => init
  | task :: rest =>
    session_aggregate ((drop_step init (SessionedMessage.Payload task)).1) rest

/-- The error code a task contributes to the session result, if any. -/
def errOf (task : ExecutedTask) : Option Nat :=
  match task.result with
  | TxResult.ok => none
  | TxResult.err e => some e

lemma session_aggregate_append (l : List ExecutedTask) :
    ∀ (init : TxResult × Nat) (task : ExecutedTask),
      session_aggregate init (l ++ [task])
        = (drop_step (session_aggregate init l) (SessionedMessage.Payload task)).1 := by
  induction l with
  | nil => intro init task; rfl
  | cons t rest ih =>
    intro init task
    simp only [List.cons_append, session_aggregate]
    exact ih _ task

lemma drop_run_session (tasks : List ExecutedTask) :
    ∀ st : TxResult × Nat,
      drop_run st (tasks.map SessionedMessage.Payload ++ [SessionedMessage.EndSession])
        = ((TxResult.ok, 0), [session_aggregate st tasks]) := by
  induction tasks with
  | nil => intro st; rfl
  | cons task rest ih =>
    intro st
    simp only [List.map_cons, List.cons_append, drop_run, session_aggregate, List.append_eq]
    rw [ih]
    simp [drop_step]

lemma session_aggregate_timings (tasks : List ExecutedTask) :
    ∀ (r : TxResult) (t : Nat),
      (session_aggregate (r, t) tasks).2 = t + (tasks.map ExecutedTask.timing).sum := by
  induction tasks with
  | nil => intro r t; simp [session_aggregate]
  | cons task rest ih =>
    intro r t
    rcases htr : task.result with _ | e <;>
      simp only [session_aggregate, drop_step, htr] <;>
      rw [ih] <;>
      simp [Nat.add_assoc]

lemma session_aggregate_result_ok (tasks : List ExecutedTask) :
    ∀ (r : TxResult) (t : Nat),
      ((session_aggregate (r, t) tasks).1 = TxResult.ok ↔
        (r = TxResult.ok ∧ ∀ task ∈ tasks, task.result = TxResult.ok)) := by
  induction tasks with
  | nil => intro r t; simp [session_aggregate]
  | cons task rest ih =>
    intro r t
    rcases htr : task.result with _ | e
    · simp [session_aggregate, drop_step, htr, ih, List.forall_mem_cons]
    · simp [session_aggregate, drop_step, htr, ih, List.forall_mem_cons]

lemma session_aggregate_last_err (tasks : List ExecutedTask) :
    ∀ (r : TxResult) (t : Nat),
      (session_aggregate (r, t) tasks).1
        = match (tasks.filterMap errOf).getLast? with
          | some e => TxResult.err e
          | none => r := by
  induction tasks using List.reverseRecOn with
  | nil => intro r t; simp [session_aggregate]
  | append_singleton l task ih =>
    intro r t
    rw [session_aggregate_append]
    rcases htr : task.result with _ | e
    · have herr : errOf task = none := by simp [errOf, htr]
      simp only [drop_step, htr, List.filterMap_append, List.filterMap_cons, herr,
        List.filterMap_nil, List.append_nil]
      exact ih r t
    · have herr : errOf task = some e := by simp [errOf, htr]
      simp [drop_step, htr, List.filterMap_append, List.filterMap_cons, herr,
        List.getLast?_concat]

/-- C6 counterexample: a session whose first failed task records error 1 and
whose second failed task records error 2 hands back error 2 — the most
recently processed error, not the first one as claimed. -/
theorem C6_counterexample :
    (drop_run (TxResult.ok, 0)
        [SessionedMessage.StartSession TxResult.ok 0,
          SessionedMessage.Payload ⟨TxResult.err 1, 0⟩,
          SessionedMessage.Payload ⟨TxResult.err 2, 0⟩,
          SessionedMessage.EndSession]).2
      = [(TxResult.err 2, 0)] ∧ TxResult.err 2 ≠ TxResult.err 1 := by
  refine ⟨rfl, by decide⟩

/-- C6 (amended): the pair emitted at session end is the fold of the
session's executed tasks over the `StartSession` seed: its timing component
accumulates all executed tasks' timings, its result is `Ok` iff every
executed task succeeded (from an `Ok` seed), and on failure it is the error
of the LAST failed executed task processed in the session. -/
theorem C6_amended_session_result (i : TxResult) (t : Nat) (tasks : List ExecutedTask) :
    (drop_run (TxResult.ok, 0)
        (SessionedMessage.StartSession i t
          :: (tasks.map SessionedMessage.Payload ++ [SessionedMessage.EndSession]))).2
      = [session_aggregate (i, t) tasks] ∧
    (session_aggregate (i, t) tasks).2 = t + (tasks.map ExecutedTask.timing).sum ∧
    ((session_aggregate (TxResult.ok, t) tasks).1 = TxResult.ok ↔
      ∀ task ∈ tasks, task.result = TxResult.ok) ∧
    (session_aggregate (i, t) tasks).1
      = match (tasks.filterMap errOf).getLast? with
        | some e => TxResult.err e
        | none => i := by
  refine ⟨?_, session_aggregate_timings tasks i t, ?_, session_aggregate_last_err tasks i t⟩
  · show (drop_run (TxResult.ok, 0) (SessionedMessage.StartSession i t :: _)).2 = _
    simp only [drop_run, drop_step]
    rw [drop_run_session]
    rfl
  · rw [session_aggregate_result_ok]
    simp

/-- `SchedulingMode` (only block verification exists in-tree). -/
inductive SchedulingMode
  | BlockVerification
deriving DecidableEq, Repr

/-- The per-session state of `scheduler-pool`'s single-threaded
`PooledScheduler`: the running `result_with_timings` plus the bank, embedded
by its transaction count (the handler's observable effect). -/
structure SchedulerSession where
  result : TxResult
  timings : Nat
  bank : Nat
deriving DecidableEq, Repr

/-- `PooledScheduler::schedule_execution` of `scheduler-pool`: computes
`fail_fast` from the context's mode, and invokes the handler (which mutates
result, timings and bank) only when the running result is still `Ok` or
fail-fast is off; returns the new state and whether the handler was
invoked. -/
def schedule_execution (mode : SchedulingMode)
    (handler : SchedulerSession → SchedulerSession)
    (st : SchedulerSession) : SchedulerSession × Bool :=
  let fail_fast :=
    match mode with
    | SchedulingMode.BlockVerification => true
  if st.result = TxResult.ok ∨ fail_fast = false then (handler st, true)
  else (st, false)

/-- C7: in block-verification mode, once an error is recorded in the
session, `schedule_execution` does not invoke the handler for any
subsequently submitted transaction, leaving the bank's transaction count
and the session timings (and the recorded error) unchanged; with no error
recorded the handler is invoked. -/
theorem C7_block_verification_fail_fast (handler : SchedulerSession → SchedulerSession)
    (st : SchedulerSession) (e : Nat) (h : st.result = TxResult.err e) :
    schedule_execution SchedulingMode.BlockVerification handler st = (st, false) ∧
    (schedule_execution SchedulingMode.BlockVerification handler st).1.bank = st.bank ∧
    (schedule_execution SchedulingMode.BlockVerification handler st).1.timings = st.timings ∧
    (∀ st2 : SchedulerSession, st2.result = TxResult.ok →
      schedule_execution SchedulingMode.BlockVerification handler st2 = (handler st2, true)) := by
  have hmain : schedule_execution SchedulingMode.BlockVerification handler st = (st, false) := by
    simp [schedule_execution, h]
  refine ⟨hmain, by rw [hmain], by rw [hmain], ?_⟩
  intro st2 h2
  simp [schedule_execution, h2]

/-- Witness for C7: a concrete handler that increments the bank count is not
invoked once an error is recorded. -/
theorem C7_block_verification_fail_fast_witness :
    schedule_execution SchedulingMode.BlockVerification
        (fun s => ⟨TxResult.ok, s.timings + 5, s.bank + 1⟩) ⟨TxResult.err 3, 2, 4⟩
      = (⟨TxResult.err 3, 2, 4⟩, false) ∧
    (schedule_execution SchedulingMode.BlockVerification
        (fun s => ⟨TxResult.ok, s.timings + 5, s.bank + 1⟩) ⟨TxResult.err 3, 2, 4⟩).1.bank = 4 ∧
    (schedule_execution SchedulingMode.BlockVerification
        (fun s => ⟨TxResult.ok, s.timings + 5, s.bank + 1⟩) ⟨TxResult.err 3, 2, 4⟩).1.timings = 2 ∧
    (∀ st2 : SchedulerSession, st2.result = TxResult.ok →
      schedule_execution SchedulingMode.BlockVerification
          (fun s => ⟨TxResult.ok, s.timings + 5, s.bank + 1⟩) st2
        = ((fun s : SchedulerSession => ⟨TxResult.ok, s.timings + 5, s.bank + 1⟩) st2, true)) :=
  C7_block_verification_fail_fast (fun s => ⟨TxResult.ok, s.timings + 5, s.bank + 1⟩)
    ⟨TxResult.err 3, 2, 4⟩ 3 rfl

/-- `SchedulingContext` embedded as an abstract identifier (mode and bank
reference are irrelevant to instance identity). -/
abbrev SchedulingContext := Nat

/-- `S::Inner` of the unified pool's `PooledScheduler`: the reusable state,
identified by its `ThreadManager`'s scheduler id. -/
structure SchedulerInner where
  scheduler_id : Nat
deriving DecidableEq, Repr

/-- A scheduler handed out by the pool: an inner bound to a context. -/
structure Scheduler where
  inner : SchedulerInner
  context : SchedulingContext
deriving DecidableEq, Repr

/-- The unified `SchedulerPool`: the `scheduler_inners` idle stack
(`Vec`: push/pop at the end) plus the `next_scheduler_id` counter. -/
structure SchedulerPool where
  scheduler_inners : List SchedulerInner
  next_scheduler_id : Nat
deriving DecidableEq, Repr

/-- `SpawnableScheduler::from_inner(inner, context)`: `start_session`
rebinds the supplied context to the pooled inner state. -/
def from_inner (inner : SchedulerInner) (context : SchedulingContext) : Scheduler :=
  { inner := inner, context := context }

/-- `S::spawn`: a brand-new inner with a freshly allocated id
(`new_scheduler_id`), bound to the context. -/
def spawn (pool : SchedulerPool) (context : SchedulingContext) :
    Scheduler × SchedulerPool :=
  ({ inner := { scheduler_id := pool.next_scheduler_id }, context := context },
    { pool with next_scheduler_id := pool.next_scheduler_id + 1 })

/-- `SchedulerPool::do_take_scheduler(context)`: `Vec::pop` of the idle
stack (intentional FILO, the most recently returned inner) rebinding it via
`from_inner`; spawns only when no idle inner exists. -/
def do_take_scheduler (pool : SchedulerPool) (context : SchedulingContext) :
    Scheduler × SchedulerPool :=
  match pool.scheduler_inners.getLast? with
  | some inner =>
    (from_inner inner context, { pool with scheduler_inners := pool.scheduler_inners.dropLast })
  | none => spawn pool context

/-- `SchedulerPool::return_scheduler(inner)`: `Vec::push` of the inner onto
the idle stack. -/
def return_scheduler (pool : SchedulerPool) (inner : SchedulerInner) : SchedulerPool :=
  { pool with scheduler_inners := pool.scheduler_inners ++ [inner] }

/-- `into_inner`: `end_session` then surrender the reusable inner state;
the instance identity (scheduler id) is untouched. -/
def into_inner (s : Scheduler) : SchedulerInner := s.inner

/-- C8: `do_take_scheduler` pops the most recently returned idle inner
(LIFO) and rebinds it to the supplied context, spawning a brand-new
instance (fresh id) only when no idle inner exists; hence take,
end-session/return, take-again yields the same instance bound to the
freshly supplied context. -/
theorem C8_take_return_take_same_instance (pool : SchedulerPool)
    (ctx ctx2 : SchedulingContext) :
    ((do_take_scheduler
        (return_scheduler (do_take_scheduler pool ctx).2
          (into_inner (do_take_scheduler pool ctx).1)) ctx2).1
      = { inner := (do_take_scheduler pool ctx).1.inner, context := ctx2 }) ∧
    (pool.scheduler_inners = [] →
      do_take_scheduler pool ctx = spawn pool ctx ∧
      (do_take_scheduler pool ctx).1.inner.scheduler_id = pool.next_scheduler_id) ∧
    (∀ inner l, pool.scheduler_inners = l ++ [inner] →
      do_take_scheduler pool ctx
        = (from_inner inner ctx, { pool with scheduler_inners := l })) := by
  refine ⟨?_, ?_, ?_⟩
  · show (do_take_scheduler
        { (do_take_scheduler pool ctx).2 with
          scheduler_inners := (do_take_scheduler pool ctx).2.scheduler_inners
            ++ [(do_take_scheduler pool ctx).1.inner] } ctx2).1 = _
    simp [do_take_scheduler, List.getLast?_concat, from_inner]
  · intro hempty
    constructor
    · simp [do_take_scheduler, hempty]
    · simp [do_take_scheduler, hempty, spawn]
  · intro inner l hl
    simp [do_take_scheduler, hl, List.getLast?_concat, List.dropLast_concat, from_inner]

/-- Witness for C8: a pool with one idle inner hands it back (LIFO) and an
empty pool spawns a fresh id; the round trip preserves the id and rebinds
the context. -/
theorem C8_take_return_take_same_instance_witness :
    ((do_take_scheduler
        (return_scheduler (do_take_scheduler ⟨[⟨9⟩], 5⟩ 100).2
          (into_inner (do_take_scheduler ⟨[⟨9⟩], 5⟩ 100).1)) 200).1
      = { inner := (do_take_scheduler ⟨[⟨9⟩], 5⟩ 100).1.inner, context := 200 }) ∧
    (do_take_scheduler (⟨[], 5⟩ : SchedulerPool) 100 = spawn ⟨[], 5⟩ 100 ∧
      (do_take_scheduler (⟨[], 5⟩ : SchedulerPool) 100).1.inner.scheduler_id = 5) ∧
    (do_take_scheduler (⟨[⟨9⟩], 5⟩ : SchedulerPool) 100
      = (from_inner ⟨9⟩ 100, { (⟨[⟨9⟩], 5⟩ : SchedulerPool) with scheduler_inners := [] })) :=
  ⟨(C8_take_return_take_same_instance ⟨[⟨9⟩], 5⟩ 100 200).1,
    (C8_take_return_take_same_instance ⟨[], 5⟩ 100 200).2.1 rfl,
    (C8_take_return_take_same_instance ⟨[⟨9⟩], 5⟩ 100 200).2.2 ⟨9⟩ [] rfl⟩

/-- `ThreadManager` as seen by the watchdog: its scheduler id and the
scheduler thread handle (`Some tid` exactly when active). -/
structure ThreadManager where
  scheduler_id : Nat
  scheduler_thread_and_tid : Option Nat
deriving DecidableEq, Repr

/-- `const PRIMARY_SCHEDULER_ID: SchedulerId = 0`. -/
def PRIMARY_SCHEDULER_ID : Nat := 0

/-- `ThreadManager::is_primary`. -/
def is_primary (tm : ThreadManager) : Bool :=
  tm.scheduler_id == PRIMARY_SCHEDULER_ID

/-- `ThreadManager::active_tid_if_not_primary`: the primary scheduler is
always exempt; otherwise the scheduler thread's tid, if active. -/
def active_tid_if_not_primary (tm : ThreadManager) : Option Nat :=
  if is_primary tm then none
  else tm.scheduler_thread_and_tid

/-- `ThreadManager::stop_threads` (its effect observable here: the
scheduler thread is joined and the handle cleared). -/
def stop_threads (tm : ThreadManager) : ThreadManager :=
  { tm with scheduler_thread_and_tid := none }

/-- `WatchedThreadManager`: the weak reference (`none` once deallocated),
the last observed cpu tick and the wall time elapsed since `updated_at`
(milliseconds). -/
structure WatchedThreadManager where
  thread_manager : Option ThreadManager
  tick : Nat
  updated_at_elapsed_ms : Nat
deriving DecidableEq, Repr

/-- `WatchedThreadManager::retire_if_stale`: one watchdog pass, given the
sampled cpu time (`utime + stime`) of the scheduler thread.  Returns
(whether `stop_threads` was called, the retain flag, the updated watcher).
A dead weak reference drops the entry; an inactive or primary manager
resets the staleness clock; cpu progress resets it; otherwise the manager
is forcibly stopped only after more than 60 seconds without progress. -/
def retire_if_stale (w : WatchedThreadManager) (current_tick : Nat) :
    Bool × Bool × WatchedThreadManager :=
  match w.thread_manager with
  | none => (false, false, w)
  | some tm =>
    match active_tid_if_not_primary tm with
    | none => (false, true, { w with tick := 0, updated_at_elapsed_ms := 0 })
    | some _ =>
      if current_tick > w.tick then
        (false, true, { w with tick := current_tick, updated_at_elapsed_ms := 0 })
      else if w.updated_at_elapsed_ms > 60000 then
        (true, true,
          { thread_manager := some (stop_threads tm), tick := 0, updated_at_elapsed_ms := 0 })
      else (false, true, w)

/-- C9: the watchdog never calls `stop_threads` on the primary scheduler's
manager, and it calls it on a non-primary manager exactly when the manager
is still referenced, active, its scheduler thread's cpu time has made no
progress since the last observation, and more than 60 seconds of wall time
have elapsed without progress. -/
theorem C9_watchdog_stops_only_stale_non_primary (w : WatchedThreadManager)
    (current_tick : Nat) :
    (∀ tm, w.thread_manager = some tm → is_primary tm = true →
      (retire_if_stale w current_tick).1 = false) ∧
    ((retire_if_stale w current_tick).1 = true ↔
      ∃ tm, w.thread_manager = some tm ∧ is_primary tm = false ∧
        tm.scheduler_thread_and_tid.isSome = true ∧
        ¬ current_tick > w.tick ∧ w.updated_at_elapsed_ms > 60000) := by
  constructor
  · intro tm htm hprim
    simp [retire_if_stale, htm, active_tid_if_not_primary, hprim]
  · rcases htm : w.thread_manager with _ | tm
    · simp [retire_if_stale, htm]
    · rcases hprim : is_primary tm with _ | _
      · rcases htid : tm.scheduler_thread_and_tid with _ | tid
        · simp [retire_if_stale, htm, active_tid_if_not_primary, hprim, htid]
        · by_cases hprog : current_tick > w.tick
          · simp [retire_if_stale, htm, active_tid_if_not_primary, hprim, htid, hprog]
          · by_cases hstale : w.updated_at_elapsed_ms > 60000
            · simp [retire_if_stale, htm, active_tid_if_not_primary, hprim, htid, hprog, hstale]
            · simp [retire_if_stale, htm, active_tid_if_not_primary, hprim, htid, hprog, hstale]
      · simp [retire_if_stale, htm, active_tid_if_not_primary, hprim]

/-- Witness for C9: a primary manager is never stopped even when stale, and
a stale non-primary manager is stopped, applying the theorem at concrete
inputs. -/
theorem C9_watchdog_stops_only_stale_non_primary_witness :
    ((retire_if_stale ⟨some ⟨0, some 42⟩, 10, 70000⟩ 10).1 = false) ∧
    ((retire_if_stale ⟨some ⟨1, some 42⟩, 10, 70000⟩ 10).1 = true) :=
  ⟨(C9_watchdog_stops_only_stale_non_primary ⟨some ⟨0, some 42⟩, 10, 70000⟩ 10).1
      ⟨0, some 42⟩ rfl rfl,
    (C9_watchdog_stops_only_stale_non_primary ⟨some ⟨1, some 42⟩, 10, 70000⟩ 10).2.mpr
      ⟨⟨1, some 42⟩, rfl, rfl, rfl, by decide, by decide⟩⟩

end Sol
